import Mathlib

/-!
# Aetheria — graph visualization core: shallow embedding and verification

This file embeds the algorithmic core of the Aetheria interactive graph view
(`src/hooks/useGraphPhysics.ts` and `src/pages/GraphView.tsx`) in Lean 4 and
proves/refutes the frozen specification claims about it.

Modelling conventions:
* JS numbers are modelled as exact rationals (`ℚ`) for the structural parts
  (graph data builder, focus scoper, viewport transform, interaction state
  machine) and as reals (`ℝ`) for the physics tick, which uses `Math.sqrt`.
* JS `string | null` is `Option String`; a JS `Record<string, T>` built by
  sequential assignment is a function `String → Option T` where a later
  assignment overwrites an earlier one.
* `Math.random()` draws are passed in as an explicit oracle parameter
  (`rand : String → ℚ × ℚ`, keyed by the entity id the draw is made for);
  no claim depends on the drawn values.
* Record fields of the source that no claim ever reads (css colors of edges,
  line style, label text positions, …) are kept only where they are cheap;
  fields that are read are modelled exactly, including JS truthiness quirks
  (`x || y` treats `0` and `""` as absent), which are noted inline.
-/

namespace Aetheria

/-! ## Data model (src/unnamed/part_004 types, restricted to builder-relevant fields) -/

/-- A relationship record owned by its source entity
(`Relationship` in the repo's types): identifier, target entity id, type label. -/
structure Relationship where
  id : String
  targetId : String
  type : String
  deriving Repr, DecidableEq

/-- An entity, restricted to the fields the graph data builder reads. -/
structure Entity where
  id : String
  categoryId : String
  relationships : List Relationship
  customScale : Option ℚ
  customColor : Option String
  deriving Repr, DecidableEq

/-- A category (id and display color are all the builder reads). -/
structure Category where
  id : String
  color : String
  deriving Repr, DecidableEq

/-- The world data handed to the graph view (`data.entities`, `data.categories`). -/
structure WorldData where
  entities : List Entity
  categories : List Category
  deriving Repr, DecidableEq

/-- A simulation node (`GraphNode` in the source), generic over the number
type: `ℚ` for the structural claims, `ℝ` for the physics tick. -/
structure GNode (α : Type) where
  id : String
  x : α
  y : α
  vx : α
  vy : α
  fx : α
  fy : α
  radius : α
  color : String
  mass : α
  deriving Repr, DecidableEq

/-- The intermediate edge record pushed into `rawEdges`
(`{id, source, target, label}`; style/color/width omitted — never read by a claim). -/
structure RawEdge where
  id : String
  source : String
  target : String
  label : String
  deriving Repr, DecidableEq

/-- A built edge (`Edge` in the source): the raw fields plus the multi-edge
grouping metadata computed by the builder.  `index` is an integer because JS
`findIndex` returns `-1` on a miss. -/
structure GEdge where
  id : String
  source : String
  target : String
  label : String
  index : ℤ
  total : ℕ
  isSelf : Bool
  inverseExists : Bool
  deriving Repr, DecidableEq

/-! ## Graph data builder (`useGraphPhysics.ts` lines 33–116) -/

/-- `new Map(allNodesRef.current.map(n => [n.id, {x: n.x, y: n.y}]))`:
a JS `Map` built from a list of key/value pairs keeps the *last* entry for a
duplicated key, hence the fold where a later node overwrites an earlier one. -/
def prevMapOf (ns : List (GNode ℚ)) : String → Option (ℚ × ℚ) :=
  ns.foldl (fun m n => fun k => if k = n.id then some (n.x, n.y) else m k)
    (fun _ => none)

/-- The randomized fallback position: `w/2 + (Math.random()-0.5)*200` (and the
same for `h`), with the two draws supplied by the oracle. -/
def randSpawn (w h : ℚ) (r : ℚ × ℚ) : ℚ × ℚ :=
  (w / 2 + (r.1 - 0.5) * 200, h / 2 + (r.2 - 0.5) * 200)

/-- Position seeding priority of the builder (lines 45–55):
persisted position → previous in-memory position → randomized spawn. -/
def seedPosition (savedPositions : String → Option (ℚ × ℚ))
    (prevMap : String → Option (ℚ × ℚ)) (w h : ℚ) (rand : String → ℚ × ℚ)
    (eid : String) : ℚ × ℚ :=
  match savedPositions eid with
  | some p => p
  | none =>
    match prevMap eid with
    | some p => p
    | none => randSpawn w h (rand eid)

/-- One node of the rebuilt node array (lines 41–66).  `e.customScale || 1`
and `e.customColor || cat?.color || '#cbd5e1'` use JS truthiness: a stored `0`
scale or `""` color counts as absent. -/
def buildNode (data : WorldData) (savedPositions : String → Option (ℚ × ℚ))
    (prevMap : String → Option (ℚ × ℚ)) (w h : ℚ) (rand : String → ℚ × ℚ)
    (e : Entity) : GNode ℚ :=
  let cat := data.categories.find? (fun c => c.id == e.categoryId)
  let pos := seedPosition savedPositions prevMap w h rand e.id
  let scale : ℚ :=
    match e.customScale with
    | some s => if s = 0 then 1 else s
    | none => 1
  let color : String :=
    match e.customColor with
    | some c =>
      if c = "" then (match cat with | some c' => c'.color | none => "#cbd5e1") else c
    | none => (match cat with | some c' => c'.color | none => "#cbd5e1")
  { id := e.id, x := pos.1, y := pos.2, vx := 0, vy := 0, fx := 0, fy := 0,
    radius := 25 * scale, color := color, mass := 1 }

/-- `newNodes` (line 41): map the entity list through `buildNode`. -/
def buildNodes (data : WorldData) (savedPositions : String → Option (ℚ × ℚ))
    (prevNodes : List (GNode ℚ)) (w h : ℚ) (rand : String → ℚ × ℚ) :
    List (GNode ℚ) :=
  data.entities.map (buildNode data savedPositions (prevMapOf prevNodes) w h rand)

/-- `rawEdges` (lines 68–85): for every entity, for every relationship whose
target id exists among the current entities, emit one raw edge; relationships
to missing entities are silently dropped. -/
def buildRawEdges (data : WorldData) : List RawEdge :=
  data.entities.flatMap (fun e =>
    (e.relationships.filter
        (fun r => (data.entities.find? (fun t => t.id == r.targetId)).isSome)).map
      (fun r => { id := r.id, source := e.id, target := r.targetId, label := r.type }))

/-- `[e.source, e.target].sort().join('-')` (line 89): the two endpoint ids in
lexicographic order, joined with a dash. -/
def pairKey (s t : String) : String :=
  if s ≤ t then s ++ "-" ++ t else t ++ "-" ++ s

/-- The `pairMap` group of a raw edge (lines 87–92): all raw edges sharing its
pair key, in insertion order. -/
def siblingsOf (raw : List RawEdge) (e : RawEdge) : List RawEdge :=
  raw.filter (fun s => pairKey s.source s.target == pairKey e.source e.target)

/-- One element of `newEdges` (lines 94–108). -/
def mkEdge (raw : List RawEdge) (e : RawEdge) : GEdge :=
  let siblings := siblingsOf raw e
  { id := e.id, source := e.source, target := e.target, label := e.label,
    index :=
      match siblings.findIdx? (fun s => s.id == e.id) with
      | some i => (i : ℤ)
      | none => -1,
    total := siblings.length,
    isSelf := e.source == e.target,
    inverseExists := siblings.any (fun s => s.source == e.target && s.target == e.source) }

/-- `newEdges` (line 94). -/
def buildEdges (raw : List RawEdge) : List GEdge :=
  raw.map (mkEdge raw)

/-! ## Focus-mode scoper (`useGraphPhysics.ts` lines 118–137)

The source mutates shared node objects (`n.vx = 0`) and aliases the arrays;
here the same computation is a pure function returning
`(activeNodes, activeEdges, allNodes after the mutation)`.  In the unfocused
branch the source aliases `allNodesRef` without touching any node, so the
triple is `(allN, allE, allN)` verbatim. -/

/-- The `neighborIds` set accumulated by the side-effecting `filter` callback
(lines 121–126): starts at `{focusNodeId}`; an edge with `source == f` adds its
target, otherwise an edge with `target == f` adds its source.  Only membership
is ever consulted, so a list models the JS `Set`. -/
def neighborIdsOf (f : String) (allE : List GEdge) : List String :=
  f :: allE.foldl
    (fun acc e =>
      if e.source == f then e.target :: acc
      else if e.target == f then e.source :: acc
      else acc) []

/-- `updateActiveSimulationSet` (lines 119–137). -/
def updateActiveSimulationSet {α : Type} [Zero α] (focusNodeId : Option String)
    (allN : List (GNode α)) (allE : List GEdge) :
    List (GNode α) × List GEdge × List (GNode α) :=
  match focusNodeId with
  | some f =>
    let neighborIds := neighborIdsOf f allE
    let relevantEdges := allE.filter (fun e => e.source == f || e.target == f)
    let zeroed := allN.map (fun n =>
      if neighborIds.contains n.id then { n with vx := 0, vy := 0 } else n)
    (zeroed.filter (fun n => neighborIds.contains n.id), relevantEdges, zeroed)
  | none => (allN, allE, allN)

/-! ## Viewport transform (`GraphView.tsx` lines 1451–1452, 1537–1542) -/

/-- The viewport transform `{x, y, k}` kept in `transformRef`. -/
structure Transform where
  x : ℚ
  y : ℚ
  k : ℚ
  deriving Repr, DecidableEq

/-- The default transform provided by the view-state store
(`ViewContext.tsx`: `{x: 0, y: 0, k: 0.8}`). -/
def defaultTransform : Transform := { x := 0, y := 0, k := 0.8 }

/-- The four viewport operations named by the spec: wheel zoom
(`handleWheel`), the two zoom buttons (`GraphBottomControls` wiring) and reset
(`handleReset`). -/
inductive ViewportOp where
  | wheel (deltaY : ℚ)
  | zoomIn
  | zoomOut
  | reset
  deriving Repr, DecidableEq

/-- One viewport operation applied to the transform:
`handleWheel` is `k = Math.max(0.1, Math.min(5, k - e.deltaY * 0.001))`;
the zoom buttons are `k *= 1.2` and `k /= 1.2` (unclamped);
`handleReset` is `transformRef.current = {x: 0, y: 0, k: 0.8}`. -/
def applyViewportOp (t : Transform) : ViewportOp → Transform
  | .wheel d => { t with k := max 0.1 (min 5 (t.k - d * 0.001)) }
  | .zoomIn => { t with k := t.k * 1.2 }
  | .zoomOut => { t with k := t.k / 1.2 }
  | .reset => { x := 0, y := 0, k := 0.8 }

/-- A sequence of viewport operations, applied left to right. -/
def applyViewportOps (t : Transform) (ops : List ViewportOp) : Transform :=
  ops.foldl applyViewportOp t

/-! ## Persistence bridge (`GraphView.tsx` lines 1058, 1112–1127) -/

/-- The `GraphViewState` record of the view-state store. -/
structure GraphState where
  x : ℚ
  y : ℚ
  k : ℚ
  nodePositions : String → Option (ℚ × ℚ)

/-- The `positions` record built at unmount (lines 1115–1118):
`positions[n.id] = {x: n.x, y: n.y}` for each node in order, later
assignments overwriting earlier ones. -/
def posMapOf (ns : List (GNode ℚ)) : String → Option (ℚ × ℚ) :=
  ns.foldl (fun m n => fun k => if k = n.id then some (n.x, n.y) else m k)
    (fun _ => none)

/-- The unmount save effect (lines 1112–1127): snapshot the transform and the
id → position map. -/
def saveGraphState (ns : List (GNode ℚ)) (t : Transform) : GraphState :=
  { x := t.x, y := t.y, k := t.k, nodePositions := posMapOf ns }

/-- `transformRef` initialization at mount (line 1058):
`{x: graphState.x, y: graphState.y, k: graphState.k}`. -/
def initTransform (gs : GraphState) : Transform :=
  { x := gs.x, y := gs.y, k := gs.k }

/-! ## Interaction state machine (`GraphView.tsx` lines 1385–1449)

Connect/drag gesture state.  `createConnection` calls out to the entity
collaborator; the model returns the `(sourceId, targetId)` pair it would have
been called with (`none` when no relationship is created). -/

/-- The interaction state read and written by the pointer handlers. -/
structure InteractionState where
  isConnectMode : Bool
  connectSourceId : Option String
  isDragging : Bool
  dragNodeId : Option String
  selectedEntityId : Option String
  deriving Repr, DecidableEq

/-- The initial interaction state of a freshly mounted graph view. -/
def initialInteraction : InteractionState :=
  { isConnectMode := false, connectSourceId := none, isDragging := false,
    dragNodeId := none, selectedEntityId := none }

/-- The hit-test loop shared by the pointer handlers (lines 1389–1396):
iterate the active nodes in reverse and return the first whose squared
distance to the pointer's world position is below its squared radius. -/
def hitTest (nodes : List (GNode ℚ)) (pos : ℚ × ℚ) : Option String :=
  (nodes.reverse.find? (fun n =>
    (pos.1 - n.x) * (pos.1 - n.x) + (pos.2 - n.y) * (pos.2 - n.y)
      < n.radius * n.radius)).map (fun n => n.id)

/-- `handleMouseDown` (lines 1385–1418).  Returns the new state and the
`createConnection` call made, if any. -/
def handleMouseDown (ctrlKey : Bool) (nodes : List (GNode ℚ)) (pos : ℚ × ℚ)
    (st : InteractionState) : InteractionState × Option (String × String) :=
  match hitTest nodes pos with
  | some clickedNodeId =>
    if ctrlKey then
      ({ st with isConnectMode := true, connectSourceId := some clickedNodeId }, none)
    else if st.isConnectMode then
      (match st.connectSourceId with
       | none => ({ st with connectSourceId := some clickedNodeId }, none)
       | some src =>
         if src ≠ clickedNodeId then
           ({ st with connectSourceId := none, isConnectMode := false },
             some (src, clickedNodeId))
         else (st, none))
    else
      ({ st with dragNodeId := some clickedNodeId,
                 selectedEntityId := some clickedNodeId }, none)
  | none =>
    (if st.isConnectMode then { st with isDragging := true }
     else { st with isDragging := true, selectedEntityId := none }, none)

/-- `handleMouseUp` (lines 1441–1449).  `hoveredNodeId` is the hover state
maintained by `handleMouseMove` via the same hit test; it is `none` when the
pointer is over empty space. -/
def handleMouseUp (hoveredNodeId : Option String) (st : InteractionState) :
    InteractionState × Option (String × String) :=
  let (st', created) :=
    match st.connectSourceId, hoveredNodeId with
    | some src, some hov =>
      if st.isConnectMode ∧ src ≠ hov then
        ({ st with connectSourceId := none, isConnectMode := false },
          some (src, hov))
      else (st, none)
    | _, _ => (st, none)
  ({ st' with isDragging := false, dragNodeId := none }, created)

/-! ## Physics solver (`useGraphPhysics.ts` lines 144–215)

The tick works on JS floats and calls `Math.sqrt`; it is modelled over `ℝ`
with `Real.sqrt` (hence the noncomputable section — comparisons on `ℝ` are
classical).  The in-place array mutation of the source becomes functional
updates threaded through folds; only `fx`/`fy` are written while positions are
read, so the sequentialization is exact. -/

noncomputable section

/-- A physics node: the node type at `ℝ`. -/
abbrev PNode := GNode ℝ

/-- `nodes.forEach(n => { n.fx = 0; n.fy = 0; })` (line 148). -/
def zeroForces (nodes : List PNode) : List PNode :=
  nodes.map (fun n => { n with fx := 0, fy := 0 })

/-- The ordered index pairs `(i, j)` with `i < j < len` visited by the nested
repulsion loops (lines 152–154). -/
def repulsionPairs (len : ℕ) : List (ℕ × ℕ) :=
  (List.range len).flatMap (fun i =>
    ((List.range len).filter (fun j => i < j)).map (fun j => (i, j)))

/-- The body of the repulsion inner loop (lines 155–165) for one pair of
indices: skip coincident or distant (`dSq > 250000`) pairs, otherwise push the
two nodes apart with magnitude `repulsion / d`, scaled by `0.8` in focus mode. -/
def applyRepulsion (repulsion : ℝ) (focused : Bool) (ns : List PNode)
    (ij : ℕ × ℕ) : List PNode :=
  match ns[ij.1]?, ns[ij.2]? with
  | some n1, some n2 =>
    let dx := n1.x - n2.x
    let dy := n1.y - n2.y
    let dSq := dx * dx + dy * dy
    if dSq = 0 ∨ dSq > 250000 then ns
    else
      let d := Real.sqrt dSq
      let force := (repulsion / d) * (if focused then 0.8 else 1)
      let fx := (dx / d) * force
      let fy := (dy / d) * force
      (ns.set ij.1 { n1 with fx := n1.fx + fx, fy := n1.fy + fy }).set ij.2
        { n2 with fx := n2.fx - fx, fy := n2.fy - fy }
  | _, _ => ns

/-- The repulsion pass (lines 150–167). -/
def repulsionStep (repulsion : ℝ) (focused : Bool) (nodes : List PNode) :
    List PNode :=
  (repulsionPairs nodes.length).foldl (applyRepulsion repulsion focused) nodes

/-- Update the first node with the given id (JS `nodes.find` returns the one
object that is then mutated; a duplicate id never aliases past the first). -/
def updateFirst (id : String) (f : PNode → PNode) : List PNode → List PNode
  | [] => []
  | n :: ns => if n.id == id then f n :: ns else n :: updateFirst id f ns

/-- The spring attraction applied by one edge (lines 170–185): skip if either
endpoint is missing from the active set, if the edge is a self-loop, or if the
endpoints coincide (`d === 0`); otherwise pull/push the endpoints with the
Hookean force `(d - linkDist) * 0.05`. -/
def applyAttraction (linkDist : ℝ) (ns : List PNode) (e : GEdge) :
    List PNode :=
  match ns.find? (fun n => n.id == e.source), ns.find? (fun n => n.id == e.target) with
  | some s, some t =>
    if e.isSelf then ns
    else
      let dx := t.x - s.x
      let dy := t.y - s.y
      let d := Real.sqrt (dx * dx + dy * dy)
      if d = 0 then ns
      else
        let force := (d - linkDist) * 0.05
        let fx := (dx / d) * force
        let fy := (dy / d) * force
        updateFirst e.target (fun t' => { t' with fx := t'.fx - fx, fy := t'.fy - fy })
          (updateFirst e.source (fun s' => { s' with fx := s'.fx + fx, fy := s'.fy + fy }) ns)
  | _, _ => ns

/-- The attraction pass (lines 169–185). -/
def attractionStep (linkDist : ℝ) (nodes : List PNode) (edges : List GEdge) :
    List PNode :=
  edges.foldl (applyAttraction linkDist) nodes

/-- The centering-gravity pass (lines 187–193): only when no focus is active. -/
def gravityStep (focusNodeId : Option String) (nodes : List PNode) : List PNode :=
  match focusNodeId with
  | some _ => nodes
  | none => nodes.map (fun n =>
      { n with fx := n.fx + (0 - n.x) * 0.01, fy := n.fy + (0 - n.y) * 0.01 })

/-- The velocity clamp of the integration step: 5 when a focal node is set,
10 otherwise (line 204). -/
def maxV (focusNodeId : Option String) : ℝ :=
  if focusNodeId.isSome then 5 else 10

/-- The integration step for one node (lines 196–214): a drag-pinned node is
skipped; the focal node is hard-locked with zero velocity; otherwise apply the
force, dampen, clamp the speed, snap small speeds to zero (testing the
*pre-clamp* squared magnitude, as the source does), and move. -/
def integrateNode (focusNodeId dragNodeId : Option String) (n : PNode) : PNode :=
  if dragNodeId = some n.id then n
  else if focusNodeId = some n.id then { n with vx := 0, vy := 0 }
  else
    let friction : ℝ := if focusNodeId.isSome then 0.85 else 0.9
    let vx := (n.vx + n.fx * 0.1) * friction
    let vy := (n.vy + n.fy * 0.1) * friction
    let m := maxV focusNodeId
    let vMagSq := vx * vx + vy * vy
    let vx' := if vMagSq > m * m then (vx / Real.sqrt vMagSq) * m else vx
    let vy' := if vMagSq > m * m then (vy / Real.sqrt vMagSq) * m else vy
    let vx'' := if vMagSq < 0.0025 then 0 else vx'
    let vy'' := if vMagSq < 0.0025 then 0 else vy'
    { n with vx := vx'', vy := vy'', x := n.x + vx'', y := n.y + vy'' }

/-- The integration pass (lines 195–214). -/
def integrationStep (focusNodeId dragNodeId : Option String)
    (nodes : List PNode) : List PNode :=
  nodes.map (integrateNode focusNodeId dragNodeId)

/-- One full `tick` (lines 144–215): zero forces, repulsion, attraction,
gravity, integration, in source order. -/
def tick (repulsion linkDist : ℝ) (focusNodeId dragNodeId : Option String)
    (nodes : List PNode) (edges : List GEdge) : List PNode :=
  integrationStep focusNodeId dragNodeId
    (gravityStep focusNodeId
      (attractionStep linkDist
        (repulsionStep repulsion (focusNodeId.isSome) (zeroForces nodes)) edges))

end

/-! ## Renderer edge curvature (`GraphView.tsx` lines 1219–1246) -/

/-- Whether a non-self edge is drawn straight:
`e.total === 1 && !e.inverseExists` (line 1224). -/
def drawsStraight (e : GEdge) : Bool :=
  e.total == 1 && !e.inverseExists

/-- The `curveFactor` of the curved branch (lines 1228–1237): the fan-out
offset `(index - (total-1)/2) * 40` when several parallel edges exist, the
fixed offset `30` when a lone edge has an inverse, `0` otherwise. -/
def curveFactor (e : GEdge) : ℚ :=
  if 1 < e.total then ((e.index : ℚ) - ((e.total : ℚ) - 1) / 2) * 40
  else if e.inverseExists then 30
  else 0

/-! ## Concrete instances used by counterexamples and witnesses -/

/-- A world with a single entity `a` (no relationships). -/
def c1World : WorldData :=
  { entities := [{ id := "a", categoryId := "cat", relationships := [],
                   customScale := none, customColor := none }],
    categories := [] }

/-- The previous in-memory node for `a`: position `(7, 8)`, velocity `(3, 4)`. -/
def c1PrevNode : GNode ℚ :=
  { id := "a", x := 7, y := 8, vx := 3, vy := 4, fx := 0, fy := 0,
    radius := 25, color := "#cbd5e1", mass := 1 }

/-- The previous in-memory node list for the C1 rebuild. -/
def c1Prev : List (GNode ℚ) := [c1PrevNode]

/-- The node the rebuild of `c1World` over `c1Prev` produces for `a`. -/
def c1Built : GNode ℚ :=
  buildNode c1World (fun _ => none) (prevMapOf c1Prev) 0 0 (fun _ => (0, 0))
    { id := "a", categoryId := "cat", relationships := [],
      customScale := none, customColor := none }

/-- An operation whose handler clamps or resets `k`: wheel zoom and reset. -/
def clampedOp : ViewportOp → Bool
  | .wheel _ => true
  | .reset => true
  | _ => false

/-- A single node at the origin with the default radius 25. -/
def c3Node : GNode ℚ :=
  { id := "a", x := 0, y := 0, vx := 0, vy := 0, fx := 0, fy := 0,
    radius := 25, color := "#cbd5e1", mass := 1 }

/-- A state with a connect gesture in progress: connect mode on, source `a`. -/
def c3InProgress : InteractionState :=
  { isConnectMode := true, connectSourceId := some "a", isDragging := false,
    dragNodeId := none, selectedEntityId := none }

/-- Two edges belong to the same *unordered-pair* group in the sense of the
claims: the same two endpoint ids regardless of direction. -/
def samePair (e e' : GEdge) : Prop :=
  (e'.source = e.source ∧ e'.target = e.target) ∨
    (e'.source = e.target ∧ e'.target = e.source)

instance (e e' : GEdge) : Decidable (samePair e e') := by
  unfold samePair; exact inferInstance

/-- A world of exactly two entities `A`, `B` whose only relationships are one
`A → B` (relationship id `r1`, label `t1`) and one `B → A` (`r2`, `t2`). -/
def c7World (A B r1 r2 t1 t2 : String) : WorldData :=
  { entities :=
      [{ id := A, categoryId := "", relationships := [⟨r1, B, t1⟩],
         customScale := none, customColor := none },
       { id := B, categoryId := "", relationships := [⟨r2, A, t2⟩],
         customScale := none, customColor := none }],
    categories := [] }

/-- A world whose entity ids contain the pair-key separator `-`:
`"a-b" → "c"` and `"a" → "b-c"` are distinct unordered pairs, yet both get the
joined key `"a-b-c"`. -/
def c6World : WorldData :=
  { entities :=
      [{ id := "a-b", categoryId := "", relationships := [⟨"r1", "c", "x"⟩],
         customScale := none, customColor := none },
       { id := "c", categoryId := "", relationships := [],
         customScale := none, customColor := none },
       { id := "a", categoryId := "", relationships := [⟨"r2", "b-c", "y"⟩],
         customScale := none, customColor := none },
       { id := "b-c", categoryId := "", relationships := [],
         customScale := none, customColor := none }],
    categories := [] }

/-- A plain `ℚ`-node factory for small focus/persistence scenarios. -/
def mkQNode (id : String) (x y : ℚ) : GNode ℚ :=
  { id := id, x := x, y := y, vx := 0, vy := 0, fx := 0, fy := 0,
    radius := 25, color := "#cbd5e1", mass := 1 }

/-- Nodes `a`, `b`, `c` for the focus-scope witness. -/
def c5Nodes : List (GNode ℚ) := [mkQNode "a" 0 0, mkQNode "b" 1 0, mkQNode "c" 2 0]

/-- One edge `a → b` for the focus-scope witness. -/
def c5Edges : List GEdge :=
  [{ id := "e1", source := "a", target := "b", label := "knows",
     index := 0, total := 1, isSelf := false, inverseExists := false }]

/-- The node list saved at unmount in the persistence witness. -/
def c8Nodes : List (GNode ℚ) := [mkQNode "a" 3 4]

/-- The transform saved at unmount in the persistence witness. -/
def c8T : Transform := { x := 11, y := -7, k := 2 }

/-- A world with entities `a` (present in the saved map) and `b` (absent). -/
def c8World : WorldData :=
  { entities :=
      [{ id := "a", categoryId := "", relationships := [],
         customScale := none, customColor := none },
       { id := "b", categoryId := "", relationships := [],
         customScale := none, customColor := none }],
    categories := [] }

noncomputable section

/-- A quiescent physics node at the origin for the integration witness. -/
def c4Node : PNode :=
  { id := "a", x := 0, y := 0, vx := 0, vy := 0, fx := 0, fy := 0,
    radius := 25, color := "#cbd5e1", mass := 1 }

/-- Two physics nodes `s`, `t` at the same position `(1, 2)`. -/
def c10s : PNode :=
  { id := "s", x := 1, y := 2, vx := 0, vy := 0, fx := 3, fy := 4,
    radius := 25, color := "#cbd5e1", mass := 1 }

/-- See `c10s`. -/
def c10t : PNode :=
  { id := "t", x := 1, y := 2, vx := 0, vy := 0, fx := 5, fy := 6,
    radius := 25, color := "#cbd5e1", mass := 1 }

/-- A non-self edge `s → t` between the coincident nodes. -/
def c10Edge : GEdge :=
  { id := "e", source := "s", target := "t", label := "knows",
    index := 0, total := 1, isSelf := false, inverseExists := false }

end

/-! ## Helper lemmas on the builder -/

theorem pairKey_comm (s t : String) : pairKey s t = pairKey t s := by
  unfold pairKey
  rcases le_total s t with h | h
  · by_cases h' : t ≤ s
    · have : s = t := le_antisymm h h'
      subst this; rfl
    · rw [if_pos h, if_neg h']
  · by_cases h' : s ≤ t
    · have : s = t := le_antisymm h' h
      subst this; rfl
    · rw [if_neg h', if_pos h]

theorem mem_siblingsOf_self {raw : List RawEdge} {r : RawEdge} (h : r ∈ raw) :
    r ∈ siblingsOf raw r :=
  List.mem_filter.2 ⟨h, by simp⟩

theorem mkEdge_mem_buildEdges {raw : List RawEdge} {r : RawEdge} (h : r ∈ raw) :
    mkEdge raw r ∈ buildEdges raw :=
  List.mem_map.2 ⟨r, h, rfl⟩

theorem two_le_length_of_mem_ne {α : Type} {l : List α} {a b : α}
    (ha : a ∈ l) (hb : b ∈ l) (hab : a ≠ b) : 2 ≤ l.length := by
  cases l with
  | nil => cases ha
  | cons x xs =>
    cases xs with
    | nil =>
      rw [List.mem_singleton] at ha hb
      exact absurd (ha.trans hb.symm) hab
    | cons y ys => simp only [List.length_cons]; omega

theorem length_filter_map_eq {α β : Type} (f : α → β) (p : β → Bool)
    (l : List α) :
    ((l.map f).filter p).length = (l.filter (fun a => p (f a))).length := by
  induction l with
  | nil => rfl
  | cons a l ih =>
    by_cases h : p (f a) = true
    · simp [List.filter_cons, h, ih]
    · simp only [Bool.not_eq_true] at h
      simp [List.filter_cons, h, ih]

/-! ## C1 — velocity handling across a data rebuild -/

/-- C1, counterexample.  The claim says a node whose id already existed in the
previous in-memory node set keeps its velocity unchanged across the rebuild.
Rebuilding over a previous node `a` with velocity `(3, 4)` (no persisted
position) produces a node `a` whose velocity is `(0, 0)`: line 61 of
`useGraphPhysics.ts` writes `vx: 0, vy: 0` unconditionally, so the claim is
false. -/
theorem c1_counterexample :
    ¬ (∀ n ∈ buildNodes c1World (fun _ => none) c1Prev 0 0 (fun _ => (0, 0)),
        ∀ p ∈ c1Prev, p.id = n.id → n.vx = p.vx ∧ n.vy = p.vy) := by
  intro h
  have hp : c1PrevNode ∈ c1Prev := by simp [c1Prev]
  have := (h c1Built (by simp [buildNodes, c1World, c1Built]) _ hp rfl).1
  norm_num [c1Built, c1PrevNode, buildNode] at this

/-- C1, amended: a rebuild resets every node's velocity to zero, carried-over
nodes included; what a carried-over node keeps is its *position* (persisted
position first, previous in-memory position second, randomized spawn last). -/
theorem c1_rebuild_resets_all_velocities
    (data : WorldData) (sp : String → Option (ℚ × ℚ)) (prev : List (GNode ℚ))
    (w h : ℚ) (rand : String → ℚ × ℚ) :
    ∀ n ∈ buildNodes data sp prev w h rand,
      n.vx = 0 ∧ n.vy = 0 ∧
      (sp n.id = none → ∀ p, prevMapOf prev n.id = some p →
        n.x = p.1 ∧ n.y = p.2) := by
  intro n hn
  rcases List.mem_map.1 hn with ⟨e, _, rfl⟩
  refine ⟨rfl, rfl, fun hsp p hprev => ?_⟩
  have hid : (buildNode data sp (prevMapOf prev) w h rand e).id = e.id := rfl
  rw [hid] at hsp hprev
  simp [buildNode, seedPosition, hsp, hprev]

/-- C1 witness: the amended theorem applied to the concrete rebuild of
`c1World` over `c1Prev`: the rebuilt node has velocity zero and keeps the
carried-over position `(7, 8)`. -/
theorem c1_witness :
    c1Built ∈ buildNodes c1World (fun _ => none) c1Prev 0 0 (fun _ => (0, 0)) ∧
      prevMapOf c1Prev c1Built.id = some (7, 8) ∧
      c1Built.vx = 0 ∧ c1Built.vy = 0 ∧ c1Built.x = 7 ∧ c1Built.y = 8 := by
  have hmem : c1Built ∈ buildNodes c1World (fun _ => none) c1Prev 0 0 (fun _ => (0, 0)) := by
    simp [buildNodes, c1World, c1Built]
  have hprev : prevMapOf c1Prev c1Built.id = some (7, 8) := by
    norm_num [prevMapOf, c1Prev, c1PrevNode, c1Built, buildNode]
  have h := c1_rebuild_resets_all_velocities c1World (fun _ => none) c1Prev 0 0
    (fun _ => (0, 0)) c1Built hmem
  exact ⟨hmem, hprev, h.1, h.2.1, (h.2.2 rfl (7, 8) hprev).1, (h.2.2 rfl (7, 8) hprev).2⟩

/-! ## C2 — the zoom range invariant -/

/-- C2, counterexample.  The claim says `k` stays in `[0.1, 5]` after any
sequence of viewport operations starting from the default transform.  Eleven
presses of the zoom-in button give `k = 0.8 · 1.2¹¹ ≈ 5.94 > 5`: the button
handlers (`k *= 1.2`, `k /= 1.2`) are unclamped. -/
theorem c2_counterexample :
    ¬ (applyViewportOps defaultTransform
        (List.replicate 11 ViewportOp.zoomIn)).k ≤ 5 := by
  norm_num [applyViewportOps, applyViewportOp, defaultTransform, List.replicate]

/-- C2, amended: `k` stays in `[0.1, 5]` from the default transform under any
sequence of wheel zooms and resets; the zoom-in/zoom-out buttons multiply or
divide `k` by 1.2 with no clamp and can leave the range. -/
theorem c2_wheel_reset_keep_k_in_range (ops : List ViewportOp)
    (h : ∀ op ∈ ops, clampedOp op = true) :
    0.1 ≤ (applyViewportOps defaultTransform ops).k ∧
      (applyViewportOps defaultTransform ops).k ≤ 5 := by
  suffices key : ∀ (l : List ViewportOp) (t : Transform),
      (∀ op ∈ l, clampedOp op = true) → 0.1 ≤ t.k → t.k ≤ 5 →
      0.1 ≤ (applyViewportOps t l).k ∧ (applyViewportOps t l).k ≤ 5 by
    exact key ops defaultTransform h (by norm_num [defaultTransform])
      (by norm_num [defaultTransform])
  intro l
  induction l with
  | nil => exact fun t _ h1 h2 => ⟨h1, h2⟩
  | cons op rest ih =>
    intro t hops h1 h2
    have hop : clampedOp op = true := hops op (List.mem_cons_self op rest)
    have hrest : ∀ o ∈ rest, clampedOp o = true :=
      fun o ho => hops o (List.mem_cons_of_mem op ho)
    cases op with
    | wheel d =>
      refine ih _ hrest ?_ ?_
      · exact le_max_left _ _
      · exact max_le (by norm_num) (min_le_left _ _)
    | reset => exact ih _ hrest (by norm_num [applyViewportOp]) (by norm_num [applyViewportOp])
    | zoomIn => simp [clampedOp] at hop
    | zoomOut => simp [clampedOp] at hop

/-- C2 witness: the amended theorem at the concrete sequence
wheel(-1000); reset; wheel(4000). -/
theorem c2_witness :
    (∀ op ∈ [ViewportOp.wheel (-1000), ViewportOp.reset, ViewportOp.wheel 4000],
        clampedOp op = true) ∧
      0.1 ≤ (applyViewportOps defaultTransform
          [ViewportOp.wheel (-1000), ViewportOp.reset, ViewportOp.wheel 4000]).k ∧
      (applyViewportOps defaultTransform
          [ViewportOp.wheel (-1000), ViewportOp.reset, ViewportOp.wheel 4000]).k ≤ 5 :=
  ⟨by simp [clampedOp], c2_wheel_reset_keep_k_in_range _ (by simp [clampedOp])⟩

/-! ## C3 — releasing a connect gesture over empty space -/

/-- C3, counterexample.  The claim says connect mode is cleared when the
gesture was entered via the Ctrl-drag and the pointer is released over empty
space.  Entering via Ctrl-press on node `a` and releasing with nothing hovered
leaves `isConnectMode = true` and the pending source set: `handleMouseUp`
(lines 1441–1449) only clears them when a distinct node is hovered, and no
code path distinguishes how connect mode was entered. -/
theorem c3_counterexample :
    (handleMouseUp none
        (handleMouseDown true [c3Node] (0, 0) initialInteraction).1).1.isConnectMode
        = true ∧
      (handleMouseUp none
        (handleMouseDown true [c3Node] (0, 0) initialInteraction).1).1.connectSourceId
        = some "a" ∧
      (handleMouseUp none
        (handleMouseDown true [c3Node] (0, 0) initialInteraction).1).2 = none := by
  norm_num [handleMouseUp, handleMouseDown, hitTest, c3Node, initialInteraction,
    List.find?]

/-- C3, amended: releasing the pointer over empty space while a connect source
is set creates no relationship and leaves both the connect mode flag and the
pending source unchanged, regardless of how connect mode was entered (toolbar
toggle or Ctrl-drag) — only the drag bookkeeping is cleared. -/
theorem c3_release_over_empty_space (st : InteractionState) (src : String)
    (hsrc : st.connectSourceId = some src) :
    (handleMouseUp none st).2 = none ∧
      (handleMouseUp none st).1.isConnectMode = st.isConnectMode ∧
      (handleMouseUp none st).1.connectSourceId = some src := by
  simp [handleMouseUp, hsrc]

/-- C3 witness: the amended theorem at a concrete in-progress connect state. -/
theorem c3_witness :
    c3InProgress.connectSourceId = some "a" ∧
      (handleMouseUp none c3InProgress).2 = none ∧
      (handleMouseUp none c3InProgress).1.isConnectMode = c3InProgress.isConnectMode ∧
      (handleMouseUp none c3InProgress).1.connectSourceId = some "a" :=
  ⟨rfl, c3_release_over_empty_space c3InProgress "a" rfl⟩

/-! ## C5 — focus-mode scoping -/

/-- Membership in the accumulator fold that builds `neighborIds`. -/
theorem mem_neighbor_foldl (f x : String) (l : List GEdge) (acc : List String) :
    x ∈ l.foldl
        (fun acc e =>
          if e.source == f then e.target :: acc
          else if e.target == f then e.source :: acc
          else acc) acc ↔
      x ∈ acc ∨ ∃ e ∈ l,
        (e.source = f ∧ e.target = x) ∨
          (¬ e.source = f ∧ e.target = f ∧ e.source = x) := by
  induction l generalizing acc with
  | nil => simp
  | cons e rest ih =>
    by_cases hs : e.source = f
    · simp only [List.foldl_cons, hs, beq_self_eq_true, if_true, ih,
        List.mem_cons, List.mem_cons]
      constructor
      · rintro (⟨h | h⟩ | h)
        · exact Or.inr ⟨e, Or.inl rfl, Or.inl ⟨hs, h.symm⟩⟩
        · exact Or.inl h
        · rcases h with ⟨e', he', hc⟩; exact Or.inr ⟨e', Or.inr he', hc⟩
      · rintro (h | ⟨e', he' | he', hc⟩)
        · exact Or.inl (Or.inr h)
        · subst he'
          rcases hc with ⟨_, ht⟩ | ⟨hns, _, _⟩
          · exact Or.inl (Or.inl ht.symm)
          · exact absurd hs hns
        · exact Or.inr ⟨e', he', hc⟩
    · have hsb : (e.source == f) = false := beq_eq_false_iff_ne.mpr hs
      by_cases ht : e.target = f
      · simp only [List.foldl_cons, hsb, Bool.false_eq_true, if_false, ht,
          beq_self_eq_true, if_true, ih, List.mem_cons, List.mem_cons]
        constructor
        · rintro (⟨h | h⟩ | h)
          · exact Or.inr ⟨e, Or.inl rfl, Or.inr ⟨hs, ht, h.symm⟩⟩
          · exact Or.inl h
          · rcases h with ⟨e', he', hc⟩; exact Or.inr ⟨e', Or.inr he', hc⟩
        · rintro (h | ⟨e', he' | he', hc⟩)
          · exact Or.inl (Or.inr h)
          · subst he'
            rcases hc with ⟨hsf, _⟩ | ⟨_, _, hsx⟩
            · exact absurd hsf hs
            · exact Or.inl (Or.inl hsx.symm)
          · exact Or.inr ⟨e', he', hc⟩
      · have htb : (e.target == f) = false := beq_eq_false_iff_ne.mpr ht
        simp only [List.foldl_cons, hsb, Bool.false_eq_true, if_false, htb, ih,
          List.mem_cons]
        constructor
        · rintro (h | h)
          · exact Or.inl h
          · rcases h with ⟨e', he', hc⟩; exact Or.inr ⟨e', Or.inr he', hc⟩
        · rintro (h | ⟨e', he' | he', hc⟩)
          · exact Or.inl h
          · subst he'
            rcases hc with ⟨hsf, _⟩ | ⟨_, htf, _⟩
            · exact absurd hsf hs
            · exact absurd htf ht
          · exact Or.inr ⟨e', he', hc⟩

/-- An id is in `neighborIds` iff it is the focal id or connected to it by
some edge. -/
theorem mem_neighborIdsOf (f x : String) (allE : List GEdge) :
    x ∈ neighborIdsOf f allE ↔
      x = f ∨ ∃ e ∈ allE,
        (e.source = f ∧ e.target = x) ∨ (e.target = f ∧ e.source = x) := by
  unfold neighborIdsOf
  rw [List.mem_cons, mem_neighbor_foldl]
  constructor
  · rintro (h | h | ⟨e, he, hc⟩)
    · exact Or.inl h
    · exact absurd h (List.not_mem_nil x)
    · rcases hc with ⟨hs, ht⟩ | ⟨_, ht, hsx⟩
      · exact Or.inr ⟨e, he, Or.inl ⟨hs, ht⟩⟩
      · exact Or.inr ⟨e, he, Or.inr ⟨ht, hsx⟩⟩
  · rintro (h | ⟨e, he, hc⟩)
    · exact Or.inl h
    · rcases hc with ⟨hs, ht⟩ | ⟨ht, hsx⟩
      · exact Or.inr (Or.inr ⟨e, he, Or.inl ⟨hs, ht⟩⟩)
      · by_cases hsf : e.source = f
        · exact Or.inl (hsx.symm.trans hsf)
        · exact Or.inr (Or.inr ⟨e, he, Or.inr ⟨hsf, ht, hsx⟩⟩)

/-- C5: for a focal id `F` present in the node set, with all edge endpoints
present among the node ids, entering focus makes the active node-id set
exactly `{F} ∪ {x | some edge connects F and x}` and the active edge set
exactly the edges touching `F`; clearing focus returns the full node and edge
lists unchanged (identical nodes: no position change, no velocity reset). -/
theorem c5_focus_scope (F : String) (allN : List (GNode ℚ)) (allE : List GEdge)
    (hF : F ∈ allN.map (fun n => n.id))
    (hclosed : ∀ e ∈ allE, e.source ∈ allN.map (fun n => n.id) ∧
      e.target ∈ allN.map (fun n => n.id)) :
    (∀ x, x ∈ (updateActiveSimulationSet (some F) allN allE).1.map (fun n => n.id) ↔
        (x = F ∨ ∃ e ∈ allE,
          (e.source = F ∧ e.target = x) ∨ (e.target = F ∧ e.source = x))) ∧
      (updateActiveSimulationSet (some F) allN allE).2.1
        = allE.filter (fun e => e.source == F || e.target == F) ∧
      updateActiveSimulationSet (none : Option String) allN allE = (allN, allE, allN) := by
  refine ⟨?_, rfl, rfl⟩
  intro x
  have hid : ∀ n : GNode ℚ,
      ((if (neighborIdsOf F allE).contains n.id then { n with vx := 0, vy := 0 }
        else n) : GNode ℚ).id = n.id := by
    intro n; split <;> rfl
  constructor
  · intro hx
    rcases List.mem_map.1 hx with ⟨n, hn, rfl⟩
    rcases List.mem_filter.1 hn with ⟨hnz, hcont⟩
    rcases List.mem_map.1 hnz with ⟨m, _, rfl⟩
    rw [hid m] at hcont ⊢
    have : m.id ∈ neighborIdsOf F allE := by
      rw [List.contains_iff_exists_mem_beq] at hcont
      rcases hcont with ⟨a, ha, hb⟩
      rwa [show m.id = a from beq_iff_eq.mp hb]
    exact (mem_neighborIdsOf F m.id allE).1 this
  · intro hx
    have hxn : x ∈ allN.map (fun n => n.id) := by
      rcases hx with rfl | ⟨e, he, hc⟩
      · exact hF
      · rcases hc with ⟨_, ht⟩ | ⟨_, hsx⟩
        · exact ht ▸ (hclosed e he).2
        · exact hsx ▸ (hclosed e he).1
    rcases List.mem_map.1 hxn with ⟨m, hm, rfl⟩
    have hmem : m.id ∈ neighborIdsOf F allE := (mem_neighborIdsOf F m.id allE).2 hx
    have hcont : (neighborIdsOf F allE).contains m.id = true :=
      List.contains_iff_exists_mem_beq.mpr ⟨m.id, hmem, beq_self_eq_true m.id⟩
    refine List.mem_map.2 ⟨if (neighborIdsOf F allE).contains m.id then
      { m with vx := 0, vy := 0 } else m, List.mem_filter.2 ⟨?_, ?_⟩, hid m⟩
    · exact List.mem_map.2 ⟨m, hm, rfl⟩
    · rw [hid m]; exact hcont

/-- C5 witness: the theorem at nodes `a`, `b`, `c` with the single edge
`a → b`, focused on `a`. -/
theorem c5_witness :
    ("a" ∈ c5Nodes.map (fun n => n.id)) ∧
      (∀ e ∈ c5Edges, e.source ∈ c5Nodes.map (fun n => n.id) ∧
        e.target ∈ c5Nodes.map (fun n => n.id)) ∧
      ((∀ x, x ∈ (updateActiveSimulationSet (some "a") c5Nodes c5Edges).1.map
            (fun n => n.id) ↔
          (x = "a" ∨ ∃ e ∈ c5Edges,
            (e.source = "a" ∧ e.target = x) ∨ (e.target = "a" ∧ e.source = x))) ∧
        (updateActiveSimulationSet (some "a") c5Nodes c5Edges).2.1
          = c5Edges.filter (fun e => e.source == "a" || e.target == "a") ∧
        updateActiveSimulationSet (none : Option String) c5Nodes c5Edges
          = (c5Nodes, c5Edges, c5Nodes)) :=
  ⟨by decide, by decide, c5_focus_scope "a" c5Nodes c5Edges (by decide) (by decide)⟩

/-! ## C6 — pair-group index/total invariants -/

/-- C6, counterexample.  The pair groups are keyed by the *joined* string
`sortedPair.join('-')`, so when entity ids contain the separator `-`, two
distinct unordered pairs can share a key: in `c6World` the edges
`"a-b" → "c"` and `"a" → "b-c"` both get key `"a-b-c"` and `total = 2`, yet
the unordered-pair group of `"a-b" → "c"` (same two endpoint ids) contains
only that edge, so its `total` is *not* the size of its unordered-pair
group. -/
theorem c6_counterexample :
    ¬ (∀ e ∈ buildEdges (buildRawEdges c6World),
        ∀ e' ∈ buildEdges (buildRawEdges c6World), samePair e' e →
          (e'.total = e.total ∧
            e.total = ((buildEdges (buildRawEdges c6World)).filter
              (fun x => decide (samePair x e))).length)) := by
  have hraw : buildRawEdges c6World =
      [{ id := "r1", source := "a-b", target := "c", label := "x" },
       { id := "r2", source := "a", target := "b-c", label := "y" }] := by
    decide
  have hle1 : ("a-b" : String) ≤ "c" := by simp; decide
  have hle2 : ("a" : String) ≤ "b-c" := by simp; decide
  have hk1 : pairKey "a-b" "c" = "a-b-c" := by
    simp only [pairKey, if_pos hle1]; decide
  have hk2 : pairKey "a" "b-c" = "a-b-c" := by
    simp only [pairKey, if_pos hle2]; decide
  intro h
  have h1 := h (mkEdge (buildRawEdges c6World)
      { id := "r1", source := "a-b", target := "c", label := "x" })
    (mkEdge_mem_buildEdges (by rw [hraw]; simp))
    (mkEdge (buildRawEdges c6World)
      { id := "r1", source := "a-b", target := "c", label := "x" })
    (mkEdge_mem_buildEdges (by rw [hraw]; simp))
    (Or.inl ⟨rfl, rfl⟩)
  have htotal : (mkEdge (buildRawEdges c6World)
      { id := "r1", source := "a-b", target := "c", label := "x" }).total = 2 := by
    simp [mkEdge, siblingsOf, hraw, hk1, hk2, List.filter]
  have hgroup : ((buildEdges (buildRawEdges c6World)).filter
      (fun x => decide (samePair x (mkEdge (buildRawEdges c6World)
        { id := "r1", source := "a-b", target := "c", label := "x" })))).length = 1 := by
    rw [hraw]
    simp only [buildEdges, List.map_cons, List.map_nil]
    rw [List.filter_cons, List.filter_cons, List.filter_nil]
    norm_num [samePair, mkEdge, hraw]
    exact ⟨fun h => absurd h (by decide), fun h => absurd h (by decide)⟩
  rw [htotal, hgroup] at h1
  exact absurd h1.2 (by norm_num)

/-- C6, amended: for every built edge, `0 ≤ index < total`; any two built
edges whose *joined pair key* coincides (in particular any two edges with the
same unordered endpoint pair) report the same `total`, equal to the number of
built edges sharing that key.  Because the key is the dash-joined sorted pair,
ids containing `-` can merge distinct unordered pairs into one group, so
`total` is the key-group size, not the strict unordered-pair-group size. -/
theorem c6_index_total_invariant (raw : List RawEdge) :
    ∀ e ∈ buildEdges raw,
      0 ≤ e.index ∧ e.index < (e.total : ℤ) ∧
      (∀ e' ∈ buildEdges raw, samePair e' e → e'.total = e.total) ∧
      e.total = ((buildEdges raw).filter
        (fun e' => pairKey e'.source e'.target == pairKey e.source e.target)).length := by
  intro e he
  rcases List.mem_map.1 he with ⟨r, hr, rfl⟩
  have hself : r ∈ siblingsOf raw r := mem_siblingsOf_self hr
  have hex : ∃ x, x ∈ siblingsOf raw r ∧ (x.id == r.id) = true :=
    ⟨r, hself, beq_self_eq_true r.id⟩
  have hfind := List.findIdx?_eq_some_of_exists hex
  have hlt := (List.findIdx?_eq_some_iff_findIdx_eq.1 hfind).1
  refine ⟨?_, ?_, ?_, ?_⟩
  · show (0 : ℤ) ≤ (mkEdge raw r).index
    simp only [mkEdge, hfind]
    exact Int.ofNat_nonneg _
  · show (mkEdge raw r).index < ((mkEdge raw r).total : ℤ)
    simp only [mkEdge, hfind]
    exact_mod_cast hlt
  · intro e' he' hpair
    rcases List.mem_map.1 he' with ⟨r', _, rfl⟩
    have hkey : pairKey r'.source r'.target = pairKey r.source r.target := by
      rcases hpair with ⟨hs, ht⟩ | ⟨hs, ht⟩
      · have hs' : r.source = r'.source := hs
        have ht' : r.target = r'.target := ht
        rw [← hs', ← ht']
      · have hs' : r.source = r'.target := hs
        have ht' : r.target = r'.source := ht
        rw [← hs', ← ht', pairKey_comm]
    show (siblingsOf raw r').length = (siblingsOf raw r).length
    unfold siblingsOf
    rw [hkey]
  · show (siblingsOf raw r).length = _
    have hpred : ∀ x : RawEdge,
        ((fun e' : GEdge => pairKey e'.source e'.target
            == pairKey (mkEdge raw r).source (mkEdge raw r).target) (mkEdge raw x))
          = (pairKey x.source x.target == pairKey r.source r.target) := fun x => rfl
    unfold buildEdges
    rw [length_filter_map_eq]
    simp only [hpred]
    rfl

/-- C6 witness: the amended theorem at the two-edge world
`c7World "a" "b" "r1" "r2" "x" "y"` (edges `a → b` and `b → a`). -/
theorem c6_witness :
    (mkEdge (buildRawEdges (c7World "a" "b" "r1" "r2" "x" "y"))
        { id := "r1", source := "a", target := "b", label := "x" })
      ∈ buildEdges (buildRawEdges (c7World "a" "b" "r1" "r2" "x" "y")) ∧
      (0 : ℤ) ≤ (mkEdge (buildRawEdges (c7World "a" "b" "r1" "r2" "x" "y"))
        { id := "r1", source := "a", target := "b", label := "x" }).index ∧
      (mkEdge (buildRawEdges (c7World "a" "b" "r1" "r2" "x" "y"))
        { id := "r1", source := "a", target := "b", label := "x" }).index
        < ((mkEdge (buildRawEdges (c7World "a" "b" "r1" "r2" "x" "y"))
        { id := "r1", source := "a", target := "b", label := "x" }).total : ℤ) := by
  have hraw : buildRawEdges (c7World "a" "b" "r1" "r2" "x" "y") =
      [{ id := "r1", source := "a", target := "b", label := "x" },
       { id := "r2", source := "b", target := "a", label := "y" }] := by
    decide
  have hmem : (mkEdge (buildRawEdges (c7World "a" "b" "r1" "r2" "x" "y"))
      { id := "r1", source := "a", target := "b", label := "x" })
      ∈ buildEdges (buildRawEdges (c7World "a" "b" "r1" "r2" "x" "y")) :=
    mkEdge_mem_buildEdges (by rw [hraw]; simp)
  have h := c6_index_total_invariant (buildRawEdges (c7World "a" "b" "r1" "r2" "x" "y"))
    _ hmem
  exact ⟨hmem, h.1, h.2.1⟩

/-! ## C7 — a bidirectional pair of relationships -/

/-- C7: for any two distinct entities `A`, `B` whose only relationships are
one `A → B` and one `B → A`, the builder produces exactly two edges, both with
the same pair key (one pair-group), both with `total = 2` and
`inverseExists = true`, and neither a self-loop. -/
theorem c7_bidirectional_pair (A B r1 r2 t1 t2 : String) (hAB : A ≠ B) :
    ((buildEdges (buildRawEdges (c7World A B r1 r2 t1 t2))).map
        (fun e => (e.total, e.inverseExists, e.isSelf)) =
      [(2, true, false), (2, true, false)]) ∧
      ∀ e ∈ buildEdges (buildRawEdges (c7World A B r1 r2 t1 t2)),
        pairKey e.source e.target = pairKey A B := by
  have hab : (A == B) = false := beq_eq_false_iff_ne.mpr hAB
  have hba : (B == A) = false := beq_eq_false_iff_ne.mpr (Ne.symm hAB)
  have hraw : buildRawEdges (c7World A B r1 r2 t1 t2) =
      [{ id := r1, source := A, target := B, label := t1 },
       { id := r2, source := B, target := A, label := t2 }] := by
    simp [buildRawEdges, c7World, List.find?, hab, hba]
  have hc : pairKey B A = pairKey A B := pairKey_comm B A
  constructor
  · rw [hraw]
    simp [buildEdges, mkEdge, siblingsOf, List.filter, hc, hab, hba]
  · intro e he
    rw [hraw] at he
    unfold buildEdges at he
    rcases List.mem_map.1 he with ⟨r, hr, rfl⟩
    rcases List.mem_cons.1 hr with rfl | hr'
    · rfl
    · rcases List.mem_singleton.1 hr' with rfl
      exact hc

/-- C7 witness: the theorem at `A = "a"`, `B = "b"`. -/
theorem c7_witness :
    ("a" : String) ≠ "b" ∧
      (((buildEdges (buildRawEdges (c7World "a" "b" "r1" "r2" "x" "y"))).map
          (fun e => (e.total, e.inverseExists, e.isSelf)) =
        [(2, true, false), (2, true, false)]) ∧
        ∀ e ∈ buildEdges (buildRawEdges (c7World "a" "b" "r1" "r2" "x" "y")),
          pairKey e.source e.target = pairKey "a" "b") :=
  ⟨by decide, c7_bidirectional_pair "a" "b" "r1" "r2" "x" "y" (by decide)⟩

/-! ## C9 — `inverseExists` forces a fan-out curve -/

/-- C9: for every non-self edge the builder produces, `inverseExists` implies
`total ≥ 2`; hence the renderer's fixed-offset branch
(`total == 1 && inverseExists`) is unreachable for builder edges, and every
curved (non-straight) non-self edge gets the fan-out offset
`(index − (total−1)/2) · 40`. -/
theorem c9_inverse_implies_fanout (raw : List RawEdge) :
    ∀ e ∈ buildEdges raw, e.isSelf = false →
      (e.inverseExists = true → 2 ≤ e.total) ∧
      ¬ (e.total = 1 ∧ e.inverseExists = true) ∧
      (drawsStraight e = false →
        curveFactor e = ((e.index : ℚ) - ((e.total : ℚ) - 1) / 2) * 40) := by
  intro e he hself
  rcases List.mem_map.1 he with ⟨r, hr, rfl⟩
  have hst : r.source ≠ r.target := by
    have : (r.source == r.target) = false := hself
    exact beq_eq_false_iff_ne.mp this
  have hmemsib : r ∈ siblingsOf raw r := mem_siblingsOf_self hr
  have hinv : (mkEdge raw r).inverseExists = true → 2 ≤ (mkEdge raw r).total := by
    intro hiv
    have : ∃ s ∈ siblingsOf raw r, (s.source == r.target && s.target == r.source) = true :=
      List.any_eq_true.1 hiv
    rcases this with ⟨s, hs, hcond⟩
    rcases Bool.and_eq_true_iff.1 hcond with ⟨hs1, hs2⟩
    have hs1' : s.source = r.target := beq_iff_eq.mp hs1
    have hsr : s ≠ r := by
      intro hsr
      subst hsr
      exact hst hs1'
    exact two_le_length_of_mem_ne hs hmemsib hsr
  have hpos : 1 ≤ (mkEdge raw r).total := List.length_pos.2 (by
    intro hnil
    rw [show (siblingsOf raw r) = ([] : List RawEdge) from hnil] at hmemsib
    exact List.not_mem_nil r hmemsib)
  refine ⟨hinv, ?_, ?_⟩
  · rintro ⟨h1, hiv⟩
    have := hinv hiv
    omega
  · intro hstraight
    have hne : ¬ ((mkEdge raw r).total = 1 ∧ (mkEdge raw r).inverseExists = false) := by
      intro ⟨h1, h2⟩
      unfold drawsStraight at hstraight
      rw [h2] at hstraight
      simp [h1] at hstraight
    have h2 : 1 < (mkEdge raw r).total := by
      rcases Nat.lt_or_ge 1 (mkEdge raw r).total with h | h
      · exact h
      · have h1 : (mkEdge raw r).total = 1 := le_antisymm h hpos
        rcases Bool.eq_false_or_eq_true (mkEdge raw r).inverseExists with ht | hf
        · have := hinv ht
          omega
        · exact absurd ⟨h1, hf⟩ hne
    unfold curveFactor
    rw [if_pos h2]

/-- C9 witness: the theorem at the concrete bidirectional world (where both
edges are curved with `total = 2`). -/
theorem c9_witness :
    (mkEdge (buildRawEdges (c7World "a" "b" "r1" "r2" "x" "y"))
        { id := "r1", source := "a", target := "b", label := "x" })
      ∈ buildEdges (buildRawEdges (c7World "a" "b" "r1" "r2" "x" "y")) ∧
      (mkEdge (buildRawEdges (c7World "a" "b" "r1" "r2" "x" "y"))
        { id := "r1", source := "a", target := "b", label := "x" }).isSelf = false ∧
      ((mkEdge (buildRawEdges (c7World "a" "b" "r1" "r2" "x" "y"))
          { id := "r1", source := "a", target := "b", label := "x" }).inverseExists = true →
        2 ≤ (mkEdge (buildRawEdges (c7World "a" "b" "r1" "r2" "x" "y"))
          { id := "r1", source := "a", target := "b", label := "x" }).total) ∧
      ¬ ((mkEdge (buildRawEdges (c7World "a" "b" "r1" "r2" "x" "y"))
          { id := "r1", source := "a", target := "b", label := "x" }).total = 1 ∧
        (mkEdge (buildRawEdges (c7World "a" "b" "r1" "r2" "x" "y"))
          { id := "r1", source := "a", target := "b", label := "x" }).inverseExists = true) := by
  have hraw : buildRawEdges (c7World "a" "b" "r1" "r2" "x" "y") =
      [{ id := "r1", source := "a", target := "b", label := "x" },
       { id := "r2", source := "b", target := "a", label := "y" }] := by
    decide
  have hmem : (mkEdge (buildRawEdges (c7World "a" "b" "r1" "r2" "x" "y"))
      { id := "r1", source := "a", target := "b", label := "x" })
      ∈ buildEdges (buildRawEdges (c7World "a" "b" "r1" "r2" "x" "y")) :=
    mkEdge_mem_buildEdges (by rw [hraw]; simp)
  have hself : (mkEdge (buildRawEdges (c7World "a" "b" "r1" "r2" "x" "y"))
      { id := "r1", source := "a", target := "b", label := "x" }).isSelf = false := by
    simp [mkEdge]
  have h := c9_inverse_implies_fanout (buildRawEdges (c7World "a" "b" "r1" "r2" "x" "y"))
    _ hmem hself
  exact ⟨hmem, hself, h.1, h.2.1⟩

/-! ## C8 — view-state round trip across a remount -/

/-- C8: saving `{panX, panY, k, nodePositions}` at unmount and reloading at
the next mount (previous in-memory node list empty) reproduces the identical
transform, and every rebuilt node whose id is in the saved map starts at its
saved position; a node absent from the map gets the randomized placement near
the viewport center. -/
theorem c8_roundtrip (nodes : List (GNode ℚ)) (t : Transform) (data : WorldData)
    (w h : ℚ) (rand : String → ℚ × ℚ) :
    initTransform (saveGraphState nodes t) = t ∧
      ∀ n ∈ buildNodes data (saveGraphState nodes t).nodePositions [] w h rand,
        (∀ p, posMapOf nodes n.id = some p → n.x = p.1 ∧ n.y = p.2) ∧
        (posMapOf nodes n.id = none → (n.x, n.y) = randSpawn w h (rand n.id)) := by
  refine ⟨rfl, ?_⟩
  intro n hn
  rcases List.mem_map.1 hn with ⟨e, _, rfl⟩
  have hid : (buildNode data (saveGraphState nodes t).nodePositions (prevMapOf [])
      w h rand e).id = e.id := rfl
  constructor
  · intro p hp
    rw [hid] at hp
    have hsp : (saveGraphState nodes t).nodePositions e.id = some p := hp
    simp [buildNode, seedPosition, hsp]
  · intro hp
    rw [hid] at hp
    have hsp : (saveGraphState nodes t).nodePositions e.id = none := hp
    simp only [buildNode, seedPosition, hsp]
    rfl

/-- C8 witness: the theorem at one saved node `a` at `(3, 4)`, a world with
entities `a` (in the saved map, restored exactly) and `b` (absent, spawned by
the random oracle). -/
theorem c8_witness :
    initTransform (saveGraphState c8Nodes c8T) = c8T ∧
      (buildNode c8World (saveGraphState c8Nodes c8T).nodePositions (prevMapOf [])
          100 60 (fun _ => (0.5, 0.5))
          { id := "a", categoryId := "", relationships := [],
            customScale := none, customColor := none })
        ∈ buildNodes c8World (saveGraphState c8Nodes c8T).nodePositions [] 100 60
          (fun _ => (0.5, 0.5)) ∧
      posMapOf c8Nodes "a" = some (3, 4) ∧
      (buildNode c8World (saveGraphState c8Nodes c8T).nodePositions (prevMapOf [])
          100 60 (fun _ => (0.5, 0.5))
          { id := "a", categoryId := "", relationships := [],
            customScale := none, customColor := none }).x = 3 ∧
      (buildNode c8World (saveGraphState c8Nodes c8T).nodePositions (prevMapOf [])
          100 60 (fun _ => (0.5, 0.5))
          { id := "a", categoryId := "", relationships := [],
            customScale := none, customColor := none }).y = 4 := by
  have hmem : (buildNode c8World (saveGraphState c8Nodes c8T).nodePositions (prevMapOf [])
      100 60 (fun _ => (0.5, 0.5))
      { id := "a", categoryId := "", relationships := [],
        customScale := none, customColor := none })
      ∈ buildNodes c8World (saveGraphState c8Nodes c8T).nodePositions [] 100 60
        (fun _ => (0.5, 0.5)) :=
    List.mem_map.2 ⟨_, by simp [c8World], rfl⟩
  have hpos : posMapOf c8Nodes "a" = some (3, 4) := by
    norm_num [posMapOf, c8Nodes, mkQNode]
  have h := (c8_roundtrip c8Nodes c8T c8World 100 60 (fun _ => (0.5, 0.5))).2 _ hmem
  exact ⟨(c8_roundtrip c8Nodes c8T c8World 100 60 (fun _ => (0.5, 0.5))).1, hmem, hpos,
    (h.1 (3, 4) hpos).1, (h.1 (3, 4) hpos).2⟩

/-! ## C4 — velocity clamp after integration -/

theorem integrateNode_id (focus drag : Option String) (n : PNode) :
    (integrateNode focus drag n).id = n.id := by
  unfold integrateNode
  split_ifs <;> rfl

theorem maxV_pos (focus : Option String) : 0 < maxV focus := by
  unfold maxV
  split <;> norm_num

/-- The numeric core of the clamp: however large the damped velocity
`(vx, vy)` is, the two `if`s of the integration step leave a vector of squared
magnitude at most `M²` (for positive `M`). -/
theorem clamp_core (M vx vy : ℝ) (hM : 0 < M) :
    (if vx * vx + vy * vy < 0.0025 then (0 : ℝ)
      else if vx * vx + vy * vy > M * M then vx / Real.sqrt (vx * vx + vy * vy) * M else vx) *
      (if vx * vx + vy * vy < 0.0025 then (0 : ℝ)
        else if vx * vx + vy * vy > M * M then vx / Real.sqrt (vx * vx + vy * vy) * M else vx) +
      (if vx * vx + vy * vy < 0.0025 then (0 : ℝ)
        else if vx * vx + vy * vy > M * M then vy / Real.sqrt (vx * vx + vy * vy) * M else vy) *
      (if vx * vx + vy * vy < 0.0025 then (0 : ℝ)
        else if vx * vx + vy * vy > M * M then vy / Real.sqrt (vx * vx + vy * vy) * M else vy)
      ≤ M * M := by
  split_ifs with hsnap hclamp
  · nlinarith
  · have hq : (0 : ℝ) ≤ vx * vx + vy * vy :=
      add_nonneg (mul_self_nonneg vx) (mul_self_nonneg vy)
    have hqpos : (0 : ℝ) < vx * vx + vy * vy := lt_trans (by nlinarith) hclamp
    have hs2 : Real.sqrt (vx * vx + vy * vy) * Real.sqrt (vx * vx + vy * vy)
        = vx * vx + vy * vy := Real.mul_self_sqrt hq
    have hspos : 0 < Real.sqrt (vx * vx + vy * vy) := Real.sqrt_pos.2 hqpos
    have hrw : vx / Real.sqrt (vx * vx + vy * vy) * M *
          (vx / Real.sqrt (vx * vx + vy * vy) * M) +
        vy / Real.sqrt (vx * vx + vy * vy) * M *
          (vy / Real.sqrt (vx * vx + vy * vy) * M)
        = ((vx * vx + vy * vy) /
            (Real.sqrt (vx * vx + vy * vy) * Real.sqrt (vx * vx + vy * vy))) * (M * M) := by
      ring
    rw [hrw, hs2, div_self (ne_of_gt hqpos), one_mul]
  · exact le_of_not_lt hclamp

/-- The integration step keeps the squared speed of a non-pinned, non-focal
node within the clamp. -/
theorem integrateNode_clamped (focus drag : Option String) (m : PNode)
    (hdrag : drag ≠ some m.id) (hfocus : focus ≠ some m.id) :
    (integrateNode focus drag m).vx * (integrateNode focus drag m).vx +
      (integrateNode focus drag m).vy * (integrateNode focus drag m).vy
      ≤ maxV focus * maxV focus := by
  unfold integrateNode
  rw [if_neg hdrag, if_neg hfocus]
  dsimp only
  exact clamp_core (maxV focus)
    ((m.vx + m.fx * 0.1) * (if focus.isSome then (0.85 : ℝ) else 0.9))
    ((m.vy + m.fy * 0.1) * (if focus.isSome then (0.85 : ℝ) else 0.9))
    (maxV_pos focus)

/-- C4: immediately after a full tick, every node that went through the
integration step (neither drag-pinned nor focal) has squared velocity
magnitude at most the clamp squared — 5 when a focal node is set, 10
otherwise — for any forces, edges and parameters. -/
theorem c4_tick_velocity_clamped (repulsion linkDist : ℝ)
    (focus drag : Option String) (nodes : List PNode) (edges : List GEdge) :
    ∀ n ∈ tick repulsion linkDist focus drag nodes edges,
      drag ≠ some n.id → focus ≠ some n.id →
      n.vx * n.vx + n.vy * n.vy ≤ maxV focus * maxV focus := by
  intro n hn hdrag hfocus
  unfold tick integrationStep at hn
  rcases List.mem_map.1 hn with ⟨m, _, rfl⟩
  rw [integrateNode_id] at hdrag hfocus
  exact integrateNode_clamped focus drag m hdrag hfocus

/-- C4 witness: a tick of a single quiescent unfocused node, which is neither
dragged nor focal. -/
theorem c4_witness :
    c4Node ∈ tick 800 150 none none [c4Node] [] ∧
      (none ≠ some c4Node.id) ∧
      c4Node.vx * c4Node.vx + c4Node.vy * c4Node.vy
        ≤ maxV none * maxV none := by
  have hpairs : repulsionPairs 1 = [] := by decide
  have htick : tick 800 150 none none [c4Node] [] = [c4Node] := by
    unfold tick integrationStep gravityStep attractionStep repulsionStep zeroForces
    norm_num [c4Node, hpairs]
    norm_num [integrateNode, c4Node, maxV]
  refine ⟨by rw [htick]; exact List.mem_singleton.2 rfl, by simp [c4Node], ?_⟩
  have h := c4_tick_velocity_clamped 800 150 none none [c4Node] []
    c4Node (by rw [htick]; exact List.mem_singleton.2 rfl)
    (by simp [c4Node]) (by simp [c4Node])
  exact h

/-! ## C10 — zero-distance guard in the attraction step -/

/-- C10: a non-self edge whose two endpoints (as found in the active node
list) sit at exactly the same position contributes nothing in the attraction
step: the node list is returned unchanged, so no force is applied to either
endpoint. -/
theorem c10_zero_distance_attraction (linkDist : ℝ) (ns : List PNode)
    (e : GEdge) (s t : PNode)
    (hs : ns.find? (fun n => n.id == e.source) = some s)
    (ht : ns.find? (fun n => n.id == e.target) = some t)
    (hself : e.isSelf = false) (hx : s.x = t.x) (hy : s.y = t.y) :
    applyAttraction linkDist ns e = ns := by
  unfold applyAttraction
  rw [hs, ht]
  have hd : Real.sqrt ((t.x - s.x) * (t.x - s.x) + (t.y - s.y) * (t.y - s.y)) = 0 := by
    rw [hx, hy, sub_self]
    simp
  simp only [hself, Bool.false_eq_true, if_false, hd, if_pos]

/-- C10 witness: the theorem at the two coincident nodes `s`, `t` and the
non-self edge `s → t`. -/
theorem c10_witness :
    ([c10s, c10t].find? (fun n => n.id == c10Edge.source) = some c10s) ∧
      ([c10s, c10t].find? (fun n => n.id == c10Edge.target) = some c10t) ∧
      c10Edge.isSelf = false ∧ c10s.x = c10t.x ∧ c10s.y = c10t.y ∧
      applyAttraction 150 [c10s, c10t] c10Edge = [c10s, c10t] := by
  have hs : [c10s, c10t].find? (fun n => n.id == c10Edge.source) = some c10s := by
    simp [List.find?, c10s, c10t, c10Edge]
  have ht : [c10s, c10t].find? (fun n => n.id == c10Edge.target) = some c10t := by
    simp [List.find?, c10s, c10t, c10Edge]
  refine ⟨hs, ht, rfl, rfl, rfl, ?_⟩
  exact c10_zero_distance_attraction 150 [c10s, c10t] c10Edge c10s c10t hs ht rfl rfl rfl

end Aetheria
